import Mathlib

/-!
Verification of the exam-schedule generator (`scheduleGenerator.py` and its
`fakeData/` variant).

The development shallowly embeds the date-only scheduler of
`src/scheduleGenerator.py` (the variant the spec adopts as canonical):

* calendar dates are modelled by their proleptic-Gregorian ordinal, a `Nat`
  (Python's `date.toordinal`; `date(1,1,1)` has ordinal 1 and is a Monday,
  so `weekday d = (d + 6) % 7` with Saturday = 5, Sunday = 6);
* Python dicts are modelled as insertion-ordered association lists with
  unique keys, matching Python 3.7+ iteration order;
* `defaultdict(list)` / `defaultdict(int)` reads are modelled by lookups
  with default `[]` / `0`.  (A Python read materialises a default entry;
  this is extensionally invisible - the entry holds the default value and
  nothing in the modelled code iterates over such maps before writing -
  so the embedding keeps reads pure.);
* Python's stable `sorted` is modelled by `List.insertionSort`, which is
  stable for a total preorder, and a stable sort is extensionally unique;
* the randomised `random.shuffle` of the slot list is modelled by an
  arbitrary function `shuffle : Nat -> List Nat -> List Nat` applied to the
  available-date list at each course index; all theorems hold for every
  such function, hence for every actual permutation.
-/

namespace ExamSchedule

/-- Python `date.weekday()`: Monday = 0 .. Sunday = 6, for an ordinal date. -/
def weekday (d : Nat) : Nat := (d + 6) % 7

/-- `student_exam_dates[s]` on a `defaultdict(list)` keyed by student id:
the value at the first (for a dict: only) entry with that key, defaulting
to the empty list. -/
def sedGet : List (String × List Nat) → String → List Nat
  | [], _ => []
  | p :: m, s => if p.1 = s then p.2 else sedGet m s

/-- `student_exam_dates[s].append(d)` on a `defaultdict(list)`: update the
entry in place, or insert a fresh entry at the end. -/
def sedAppend : List (String × List Nat) → String → Nat →
    List (String × List Nat)
  | [], s, d => [(s, [d])]
  | p :: m, s, d =>
    if p.1 = s then (p.1, p.2 ++ [d]) :: m else p :: sedAppend m s d

/-- `exams_per_day[d]` on a `defaultdict(int)` keyed by date. -/
def epdGet : List (Nat × Nat) → Nat → Nat
  | [], _ => 0
  | p :: m, d => if p.1 = d then p.2 else epdGet m d

/-- `exams_per_day[d] += 1` on a `defaultdict(int)`. -/
def epdIncr : List (Nat × Nat) → Nat → List (Nat × Nat)
  | [], d => [(d, 1)]
  | p :: m, d =>
    if p.1 = d then (p.1, p.2 + 1) :: m else p :: epdIncr m d

/-- `dict[k] = v` on a plain dict: overwrite in place or append a new key. -/
def dictSet : List (String × Nat) → String → Nat → List (String × Nat)
  | [], k, v => [(k, v)]
  | p :: m, k, v =>
    if p.1 = k then (p.1, v) :: m else p :: dictSet m k v

/-- `student_courses.get(s, [])`: the course list of a student. -/
def scGet : List (String × List String) → String → List String
  | [], _ => []
  | p :: m, s => if p.1 = s then p.2 else scGet m s

/-- `[s_id for s_id, courses in student_courses.items() if course in courses]`
(`generate_schedule_locally`, src/scheduleGenerator.py:384). -/
def courseStudents (students : List (String × List String)) (c : String) :
    List String :=
  (students.filter (fun p => c ∈ p.2)).map (fun p => p.1)

/-- The mutable state of one local scheduling run
(`generate_schedule_locally`, src/scheduleGenerator.py:354-358):
`schedule`, `course_dates`, `student_exam_dates`, `exams_per_day`,
`unscheduled_courses`. -/
structure SchedState where
  schedule : List (String × Nat)
  course_dates : List (String × Nat)
  sed : List (String × List Nat)
  epd : List (Nat × Nat)
  unscheduled : List String
deriving DecidableEq

/-- The initial (empty) scheduler state. -/
def initState : SchedState := ⟨[], [], [], [], []⟩

/-- The per-student conflict test of the inner loop
(src/scheduleGenerator.py:386-397): the student already sits an exam on
`t`, or sits one at a distance `0 < diff < MIN_DAYS_BETWEEN_EXAMS`. -/
def studentConflict (minGap : Nat) (sed : List (String × List Nat))
    (s : String) (t : Nat) : Bool :=
  t ∈ sedGet sed s ||
    (sedGet sed s).any (fun d => 0 < Nat.dist t d && Nat.dist t d < minGap)

/-- The whole `conflicts` flag computed for one candidate date of one course
(src/scheduleGenerator.py:379-397). -/
def hasConflicts (minGap : Nat) (students : List (String × List String))
    (sed : List (String × List Nat)) (c : String) (t : Nat) : Bool :=
  (courseStudents students c).any (fun s => studentConflict minGap sed s t)

/-- The scan over the shuffled date list (src/scheduleGenerator.py:378-398):
skip a full day (`exams_per_day[test_date] >= MAX_EXAMS_PER_DAY`), skip a
conflicting date, and return the first acceptable date. -/
def findDate (minGap maxPerDay : Nat) (students : List (String × List String))
    (σ : SchedState) (c : String) : List Nat → Option Nat
  | [] => none
  | t :: rest =>
    if maxPerDay ≤ epdGet σ.epd t then
      findDate minGap maxPerDay students σ c rest
    else if hasConflicts minGap students σ.sed c t then
      findDate minGap maxPerDay students σ c rest
    else
      some t

/-- The commit block (src/scheduleGenerator.py:399-410).  Note that in the
source the `schedule.append` sits inside the
`for student_id in course_students_taking_this:` loop, so one `(course, date)`
row is appended per enrolled student; the embedding reproduces this. -/
def commitCourse (students : List (String × List String)) (σ : SchedState)
    (c : String) (t : Nat) : SchedState :=
  let enrolled := courseStudents students c
  { schedule := σ.schedule ++ enrolled.map (fun _ => (c, t))
    course_dates := dictSet σ.course_dates c t
    sed := enrolled.foldl (fun m s => sedAppend m s t) σ.sed
    epd := epdIncr σ.epd t
    unscheduled := σ.unscheduled }

/-- One iteration of the course loop (src/scheduleGenerator.py:373-416):
commit on the first acceptable date, otherwise record the course as
unscheduled. -/
def scheduleCourse (minGap maxPerDay : Nat)
    (students : List (String × List String)) (σ : SchedState) (c : String)
    (datesToTry : List Nat) : SchedState :=
  match findDate minGap maxPerDay students σ c datesToTry with
  | some t => commitCourse students σ c t
  | none => { σ with unscheduled := σ.unscheduled ++ [c] }

/-- The course loop itself; `i` is the index used to pick this course's
shuffled copy of the available-date list. -/
def runFrom (minGap maxPerDay : Nat) (students : List (String × List String))
    (avail : List Nat) (shuffle : Nat → List Nat → List Nat) :
    SchedState → Nat → List String → SchedState
  | σ, _, [] => σ
  | σ, i, c :: cs =>
    runFrom minGap maxPerDay students avail shuffle
      (scheduleCourse minGap maxPerDay students σ c (shuffle i avail))
      (i + 1) cs

/-- `course_student_count` (src/scheduleGenerator.py:342-345): the number of
occurrences of a course across all students' course lists. -/
def courseStudentCount (students : List (String × List String)) (c : String) :
    Nat :=
  students.foldl (fun n p => n + p.2.count c) 0

/-- `sorted(all_course_codes, key=lambda c: course_student_count.get(c, 0),
reverse=True)` (src/scheduleGenerator.py:348): stable sort, descending by
per-course student count. -/
def sortCourses (students : List (String × List String))
    (cs : List String) : List String :=
  List.insertionSort
    (fun a b => courseStudentCount students b ≤ courseStudentCount students a)
    cs

/-- The available-date loop (src/scheduleGenerator.py:360-365): every day of
`[startD, endD]`, dropping Saturdays and Sundays when `skip` is set. -/
def availableDates (skip : Bool) (startD endD : Nat) : List Nat :=
  (((List.range (endD + 1 - startD)).map (fun i => startD + i)).filter
    (fun d => !(skip && decide (5 ≤ weekday d))))

/-- `generate_schedule_locally` (src/scheduleGenerator.py:329-441), reduced to
its scheduling core: `none` models the `return None, None, None` paths
(missing input data, empty available-date list), `some` carries the final
scheduler state, from which the returned `schedule`, `student_exam_dates`
and `course_dates` are the corresponding fields. -/
def generateScheduleLocally (minGap maxPerDay : Nat) (skip : Bool)
    (startD endD : Nat) (students : List (String × List String))
    (allCourses : List String) (shuffle : Nat → List Nat → List Nat) :
    Option SchedState :=
  if allCourses.isEmpty || students.isEmpty then none
  else
    let avail := availableDates skip startD endD
    if avail.isEmpty then none
    else some (runFrom minGap maxPerDay students avail shuffle initState 0
      (sortCourses students allCourses))

/-- The `issues` list of the local response
(src/scheduleGenerator.py:437). -/
def issuesOf (unscheduled : List String) : List String :=
  unscheduled.map (fun c => "Course " ++ c ++ " could not be scheduled.")

/-- Python's `sorted(list(set(exams)))`
(src/scheduleGenerator.py:454): the increasing list of the distinct dates
(any realisation of "the sorted duplicate-free list of the elements" is
extensionally the same list). -/
def dedupSort (l : List Nat) : List Nat :=
  List.insertionSort (fun a b : Nat => a ≤ b) l.dedup

/-- One conflict record of `check_final_schedule_conflicts`
(src/scheduleGenerator.py:472-479). -/
structure Conflict where
  ctype : String
  student_id : String
  date1 : Nat
  date2 : Nat
  days_between : Nat
  exams : List String
deriving DecidableEq

/-- `[c for c, dt in course_dates.items() if dt == date and c in
student_courses.get(student_id, [])]` (src/scheduleGenerator.py:469-470). -/
def implicatedCourses (cd : List (String × Nat))
    (sc : List (String × List String)) (sid : String) (d : Nat) :
    List String :=
  (cd.filter (fun p => p.2 = d ∧ p.1 ∈ scGet sc sid)).map (fun p => p.1)

/-- The adjacent-pair scan of `check_final_schedule_conflicts`
(src/scheduleGenerator.py:462-479), applied to one student's already
deduplicated and sorted exam dates. -/
def adjacentConflicts (minGap : Nat) (sid : String)
    (cd : List (String × Nat)) (sc : List (String × List String)) :
    List Nat → List Conflict
  | d1 :: d2 :: rest =>
    let tail := adjacentConflicts minGap sid cd sc (d2 :: rest)
    if 0 < d2 - d1 ∧ d2 - d1 < minGap then
      let cs1 := implicatedCourses cd sc sid d1
      let cs2 := implicatedCourses cd sc sid d2
      if cs1.isEmpty && cs2.isEmpty then tail
      else ⟨"Insufficient Days Conflict", sid, d1, d2, d2 - d1, cs1 ++ cs2⟩ :: tail
    else tail
  | _ => []

/-- `check_final_schedule_conflicts` (src/scheduleGenerator.py:443-482): for
each student of the exam-date map, deduplicate and sort the dates, then flag
every adjacent pair whose gap is strictly between 0 and
`MIN_DAYS_BETWEEN_EXAMS`, provided an implicated course can be identified. -/
def check_final_schedule_conflicts (minGap : Nat)
    (student_exam_dates : List (String × List Nat))
    (course_dates : List (String × Nat))
    (student_courses : List (String × List String)) : List Conflict :=
  if student_exam_dates.isEmpty || course_dates.isEmpty ||
      student_courses.isEmpty then []
  else
    student_exam_dates.foldr
      (fun p acc =>
        adjacentConflicts minGap p.1 course_dates student_courses
          (dedupSort p.2) ++ acc) []

/-- Python `list.sort()` on a list of dates. -/
def sortNat (l : List Nat) : List Nat :=
  List.insertionSort (fun a b : Nat => a ≤ b) l

/-- `build_student_exam_dates_from_schedule`
(src/scheduleGenerator.py:199-230): append each scheduled course's date to
every enrolled student's list, then sort each list. -/
def buildStudentExamDates (schedule : List (String × Nat))
    (students : List (String × List String)) : List (String × List Nat) :=
  let m := schedule.foldl
    (fun m item =>
      students.foldl
        (fun m p => if item.1 ∈ p.2 then sedAppend m p.1 item.2 else m) m)
    []
  m.map (fun p => (p.1, sortNat p.2))

/-- The three outcomes of `call_deepseek_api`
(src/scheduleGenerator.py:288-327): the request fails, the response does not
parse as JSON, or a schedule is parsed.  The first two fall back to
`generate_schedule_locally`. -/
inductive RemoteOutcome where
  | requestFailed
  | parseFailed
  | parsed (schedule : List (String × Nat))
deriving DecidableEq

/-- What `call_deepseek_api` returns to `main`: on a successfully parsed
response, the 2-tuple `(schedule_data, student_exam_dates)` of
src/scheduleGenerator.py:312; on a failed request or unparseable response,
the 3-tuple of `generate_schedule_locally` (collapsed to its
`Option SchedState` core, `none` standing for the `None, None, None`
error return). -/
inductive ApiReturn where
  | pair (schedule : List (String × Nat)) (sed : List (String × List Nat))
  | triple (localResult : Option SchedState)
deriving DecidableEq

/-- The data `main` holds after scheduling and the final conflict check
(src/scheduleGenerator.py:857-886). -/
structure PipeResult where
  schedule : List (String × Nat)
  course_dates : List (String × Nat)
  sed : List (String × List Nat)
  final_conflicts : List Conflict
deriving DecidableEq

/-- The scheduling flow of `main` (src/scheduleGenerator.py:857-886)
composed with `call_deepseek_api`.  A failed request or unparseable
response falls back to the local scheduler, whose 3-tuple unpacks fine at
line 866 and, unless it is the `None, None, None` error return (guard at
line 875), is passed through `check_final_schedule_conflicts`, the
findings stored alongside the unchanged schedule.  A successfully parsed
remote schedule, however, comes back as a 2-tuple
(src/scheduleGenerator.py:312): unpacking it into the three targets of
line 866 raises `ValueError`, which the blanket handler at line 922
catches, so `main` aborts with no schedule, no verifier run and no output
(`none` here); the `course_dates` reconstruction at lines 868-870 is dead
code on this path. -/
def runPipeline (minGap maxPerDay : Nat) (skip : Bool) (startD endD : Nat)
    (students : List (String × List String)) (allCourses : List String)
    (shuffle : Nat → List Nat → List Nat) (outcome : RemoteOutcome) :
    Option PipeResult :=
  let apiReturn : ApiReturn :=
    match outcome with
    | .requestFailed =>
      .triple (generateScheduleLocally minGap maxPerDay skip startD endD
        students allCourses shuffle)
    | .parseFailed =>
      .triple (generateScheduleLocally minGap maxPerDay skip startD endD
        students allCourses shuffle)
    | .parsed s => .pair s (buildStudentExamDates s students)
  match apiReturn with
  | .pair _ _ => none
  | .triple none => none
  | .triple (some σ) =>
    some ⟨σ.schedule, σ.course_dates, σ.sed,
      check_final_schedule_conflicts minGap σ.sed σ.course_dates students⟩

/-- Python string comparison on code-point sequences: strict lexicographic
order. -/
def charListLt : List Char → List Char → Bool
  | [], [] => false
  | [], _ :: _ => true
  | _ :: _, [] => false
  | c :: cs, d :: ds =>
    if c.toNat < d.toNat then true
    else if d.toNat < c.toNat then false
    else charListLt cs ds

/-- Python's `<` on strings. -/
def pyStrLt (a b : String) : Bool := charListLt a.data b.data

/-- Python's `<=` on strings. -/
def pyStrLe (a b : String) : Bool := !(pyStrLt b a)

/-- `sorted(student_data['courses'])` (src/scheduleGenerator.py:141). -/
def sortedCoursesOfStudent (cs : List String) : List String :=
  List.insertionSort (fun a b : String => pyStrLe a b = true) cs

/-- The `f"{course1}_{course2}"` keys of all index pairs `i < j` of a course
list, in iteration order (src/scheduleGenerator.py:143-149). -/
def pairsOf : List String → List String
  | [] => []
  | c :: rest => rest.map (fun c2 => c ++ "_" ++ c2) ++ pairsOf rest

/-- `course_pairs[pair] += 1` on a `defaultdict(int)` keyed by pair string. -/
def bump : List (String × Nat) → String → List (String × Nat)
  | [], k => [(k, 1)]
  | p :: m, k =>
    if p.1 = k then (p.1, p.2 + 1) :: m else p :: bump m k

/-- `analyze_course_conflicts` (src/scheduleGenerator.py:136-158): count each
canonicalised co-enrolled pair over all students, then stable-sort the
`(pair, count)` items descending by count (`sorted(..., key=lambda x: x[1],
reverse=True)`). -/
def analyze_course_conflicts (students : List (String × List String)) :
    List (String × Nat) :=
  let m := students.foldl
    (fun m p => (pairsOf (sortedCoursesOfStudent p.2)).foldl bump m) []
  List.insertionSort (fun a b : String × Nat => b.2 ≤ a.2) m

/-- Shared-student count of two courses, written from the spec's words for
the refinement comparison of the course ordering: the number of students
enrolled in both. -/
def sharedStudents (students : List (String × List String))
    (c1 c2 : String) : Nat :=
  (students.filter (fun p => c1 ∈ p.2 ∧ c2 ∈ p.2)).length

/-- Conflict pressure as the spec words it (glossary and section 4.2): the
sum of all pairwise shared-student counts involving a given course.  Written
from the spec, not the source, to compare the source's actual course
ordering against the spec's claimed one. -/
def conflictPressure (students : List (String × List String))
    (allCourses : List String) (c : String) : Nat :=
  (allCourses.map (fun c2 => if c2 = c then 0 else sharedStudents students c c2)).sum

/-- One raw enrollment row as fetched by `fetch_student_enrollments`
(src/fakeData/scheduleGenerator.py:72-92). -/
structure Enrollment where
  id : String
  name : String
  department : String
  academic_level : String
  course_code : String
deriving DecidableEq

/-- The per-student record built by `group_enrollments_by_student`
(src/fakeData/scheduleGenerator.py:125-141). -/
structure StudentData where
  name : String
  department : String
  academic_level : String
  courses : List String
deriving DecidableEq

/-- The loop body of `group_enrollments_by_student`
(src/fakeData/scheduleGenerator.py:129-139): create the student entry on
first sight, then append the enrollment's course code to the student's
course list. -/
def groupStep : List (String × StudentData) → Enrollment →
    List (String × StudentData)
  | [], e => [(e.id, ⟨e.name, e.department, e.academic_level, [e.course_code]⟩)]
  | p :: m, e =>
    if p.1 = e.id then
      (p.1, { p.2 with courses := p.2.courses ++ [e.course_code] }) :: m
    else p :: groupStep m e

/-- `group_enrollments_by_student`
(src/fakeData/scheduleGenerator.py:125-141). -/
def group_enrollments_by_student (enrollments : List Enrollment) :
    List (String × StudentData) :=
  enrollments.foldl groupStep []

/-- The course list `group_enrollments_by_student` records for a student. -/
def coursesOf : List (String × StudentData) → String → List String
  | [], _ => []
  | p :: m, s => if p.1 = s then p.2.courses else coursesOf m s

/-- The two per-student invariants of section 3 of the spec on one exam-date
list: no two exams share a date, and no two exams lie at a distance strictly
between 0 and `MIN_DAYS_BETWEEN_EXAMS`. -/
def studentDatesOk (minGap : Nat) (l : List Nat) : Prop :=
  l.Nodup ∧
    ∀ a ∈ l, ∀ b ∈ l, a ≠ b → ¬(0 < Nat.dist a b ∧ Nat.dist a b < minGap)

/-- Concrete student population used to instantiate the clean-run theorem:
one student enrolled in two courses. -/
def c1Students : List (String × List String) := [("s1", ["A", "B"])]

/-- The scheduler state of a concrete clean run over `c1Students` with
`MIN_DAYS_BETWEEN_EXAMS = 2`, a seven-day window and the identity shuffle. -/
def c1Result : SchedState :=
  (generateScheduleLocally 2 5 false 2 8 c1Students ["A", "B"]
    (fun _ l => l)).getD initState

/-- A concrete conflict record produced by the verifier: student `s1` sits
exams on consecutive days 10 and 11 while the minimum gap is 3. -/
def c4Record : Conflict :=
  ⟨"Insufficient Days Conflict", "s1", 10, 11, 1, ["A", "B"]⟩

/-- The local scheduler's state on a concrete four-day window with one
student in two courses, used to exercise the remote-fallback equalities. -/
def c5LocalResult : SchedState :=
  (generateScheduleLocally 2 5 false 11 14 [("s1", ["A", "B"])] ["A", "B"]
    (fun _ l => l)).getD initState

/-- A concrete student population separating enrolled-student count from
conflict pressure: course `A` has three students but no co-enrolment (zero
pressure), courses `D` and `E` have two students each and pressure two. -/
def c6Students : List (String × List String) :=
  [("s1", ["A"]), ("s2", ["A"]), ("s3", ["A"]),
   ("s4", ["D", "E"]), ("s5", ["D", "E"])]

/-- The per-student part of the scheduler's running-state invariant: the
exam-date association list has unique keys (it models a Python dict) and
every student's date list satisfies the two section-3 invariants. -/
def SchedInv (minGap : Nat) (σ : SchedState) : Prop :=
  ((σ.sed.map (fun p => p.1)).Nodup) ∧
    ∀ s, studentDatesOk minGap (sedGet σ.sed s)

/-- Lemmas about the association-list embedding of the Python dicts. -/
theorem sedGet_sedAppend (m : List (String × List Nat)) (k s : String)
    (d : Nat) :
    sedGet (sedAppend m k d) s =
      if k = s then sedGet m s ++ [d] else sedGet m s := by
  induction m with
  | nil =>
    by_cases h : k = s <;> simp [sedAppend, sedGet, h]
  | cons p m ih =>
    by_cases hk : p.1 = k
    · by_cases h : k = s
      · simp [sedAppend, sedGet, hk, h]
      · have hps : ¬p.1 = s := fun hps => h (hk ▸ hps ▸ rfl)
        simp [sedAppend, sedGet, hk, hps, h]
    · by_cases hps : p.1 = s
      · have h : ¬k = s := fun h => hk (h ▸ hps)
        have hsk : ¬s = k := fun hsk => h hsk.symm
        simp [sedAppend, sedGet, hk, hps, h, hsk]
      · simp [sedAppend, sedGet, hk, hps, ih]

theorem keys_sedAppend (m : List (String × List Nat)) (s : String)
    (d : Nat) :
    (sedAppend m s d).map (fun p => p.1) =
      if s ∈ m.map (fun p => p.1) then m.map (fun p => p.1)
      else m.map (fun p => p.1) ++ [s] := by
  induction m with
  | nil => simp [sedAppend]
  | cons p m ih =>
    by_cases hp : p.1 = s
    · simp [sedAppend, hp]
    · have hsp : ¬s = p.1 := fun h => hp h.symm
      by_cases hm : s ∈ m.map (fun p => p.1) <;>
        simp [sedAppend, hp, hsp, hm, ih]

theorem sedAppend_nodupKeys {m : List (String × List Nat)}
    (h : (m.map (fun p => p.1)).Nodup) (s : String) (d : Nat) :
    ((sedAppend m s d).map (fun p => p.1)).Nodup := by
  rw [keys_sedAppend]
  by_cases hm : s ∈ m.map (fun p => p.1)
  · simpa [hm] using h
  · simp only [hm, if_false]
    simpa [List.nodup_append, hm] using h

theorem sedGet_of_mem {m : List (String × List Nat)}
    (hk : (m.map (fun p => p.1)).Nodup) {s : String} {v : List Nat}
    (h : (s, v) ∈ m) : sedGet m s = v := by
  induction m with
  | nil => cases h
  | cons p m ih =>
    simp only [List.map_cons, List.nodup_cons] at hk
    rcases List.mem_cons.mp h with h | h
    · simp [sedGet, ← h]
    · have hne : p.1 ≠ s := by
        intro he
        exact hk.1 (he ▸ List.mem_map.mpr ⟨(s, v), h, rfl⟩)
      simpa [sedGet, hne] using ih hk.2 h

theorem sedGet_foldAppend_not_mem {t : Nat} :
    ∀ (en : List String) (m : List (String × List Nat)) (s : String),
      s ∉ en →
      sedGet (en.foldl (fun m x => sedAppend m x t) m) s = sedGet m s := by
  intro en
  induction en with
  | nil => intro m s _; rfl
  | cons e rest ih =>
    intro m s hs
    have h1 : ¬e = s := fun h => hs (h ▸ List.mem_cons_self e rest)
    have h2 : s ∉ rest := fun h => hs (List.mem_cons_of_mem e h)
    rw [List.foldl_cons, ih _ _ h2, sedGet_sedAppend, if_neg h1]

theorem sedGet_foldAppend_mem {t : Nat} :
    ∀ (en : List String) (m : List (String × List Nat)) (s : String),
      en.Nodup → s ∈ en →
      sedGet (en.foldl (fun m x => sedAppend m x t) m) s =
        sedGet m s ++ [t] := by
  intro en
  induction en with
  | nil => intro m s _ h; cases h
  | cons e rest ih =>
    intro m s hnd hs
    have hnd' := List.nodup_cons.mp hnd
    rcases List.mem_cons.mp hs with h | h
    · subst h
      rw [List.foldl_cons, sedGet_foldAppend_not_mem rest _ _ hnd'.1,
        sedGet_sedAppend, if_pos rfl]
    · have hne : ¬e = s := fun he => hnd'.1 (he ▸ h)
      rw [List.foldl_cons, ih _ _ hnd'.2 h, sedGet_sedAppend, if_neg hne]

theorem foldAppend_nodupKeys {t : Nat} :
    ∀ (en : List String) (m : List (String × List Nat)),
      (m.map (fun p => p.1)).Nodup →
      (((en.foldl (fun m x => sedAppend m x t) m)).map
        (fun p => p.1)).Nodup := by
  intro en
  induction en with
  | nil => intro m h; exact h
  | cons e rest ih =>
    intro m h
    exact ih _ (sedAppend_nodupKeys h e t)

theorem epdGet_epdIncr (m : List (Nat × Nat)) (k d : Nat) :
    epdGet (epdIncr m k) d =
      if k = d then epdGet m d + 1 else epdGet m d := by
  induction m with
  | nil =>
    by_cases h : k = d <;> simp [epdIncr, epdGet, h]
  | cons p m ih =>
    by_cases hk : p.1 = k
    · by_cases h : k = d
      · simp [epdIncr, epdGet, hk, h]
      · have hpd : ¬p.1 = d := fun hpd => h (hk ▸ hpd ▸ rfl)
        simp [epdIncr, epdGet, hk, hpd, h]
    · by_cases hpd : p.1 = d
      · have h : ¬k = d := fun h => hk (h ▸ hpd)
        have hdk : ¬d = k := fun hdk => h hdk.symm
        simp [epdIncr, epdGet, hk, hpd, h, hdk]
      · simp [epdIncr, epdGet, hk, hpd, ih]

/-- A successful `findDate` only ever returns a date whose day counter is
still below the cap (the `continue` of src/scheduleGenerator.py:381-382). -/
theorem findDate_some_lt {minGap maxPerDay : Nat}
    {students : List (String × List String)} {σ : SchedState} {c : String} :
    ∀ {dts : List Nat} {t : Nat},
      findDate minGap maxPerDay students σ c dts = some t →
      epdGet σ.epd t < maxPerDay := by
  intro dts
  induction dts with
  | nil => intro t h; cases h
  | cons x rest ih =>
    intro t h
    rw [findDate] at h
    split at h
    · exact ih h
    · split at h
      · exact ih h
      · cases h
        omega

/-- A successful `findDate` only ever returns a conflict-free date
(src/scheduleGenerator.py:386-399). -/
theorem findDate_some_noConflicts {minGap maxPerDay : Nat}
    {students : List (String × List String)} {σ : SchedState} {c : String} :
    ∀ {dts : List Nat} {t : Nat},
      findDate minGap maxPerDay students σ c dts = some t →
      hasConflicts minGap students σ.sed c t = false := by
  intro dts
  induction dts with
  | nil => intro t h; cases h
  | cons x rest ih =>
    intro t h
    rw [findDate] at h
    split at h
    · exact ih h
    · split at h
      · exact ih h
      · cases h
        next hc => exact Bool.not_eq_true _ ▸ Bool.of_not_eq_true hc

theorem studentConflict_eq_false {minGap : Nat}
    {sed : List (String × List Nat)} {s : String} {t : Nat}
    (h : studentConflict minGap sed s t = false) :
    t ∉ sedGet sed s ∧
      ∀ d ∈ sedGet sed s,
        ¬(0 < Nat.dist t d ∧ Nat.dist t d < minGap) := by
  constructor
  · intro hmem
    have ht : studentConflict minGap sed s t = true := by
      simp [studentConflict, hmem]
    rw [h] at ht
    cases ht
  · intro d hd hc
    have ht : studentConflict minGap sed s t = true := by
      simp only [studentConflict, Bool.or_eq_true, List.any_eq_true]
      exact Or.inr ⟨d, hd, by simp [hc.1, hc.2]⟩
    rw [h] at ht
    cases ht

theorem hasConflicts_eq_false {minGap : Nat}
    {students : List (String × List String)}
    {sed : List (String × List Nat)} {c : String} {t : Nat}
    (h : hasConflicts minGap students sed c t = false) :
    ∀ s ∈ courseStudents students c,
      studentConflict minGap sed s t = false := by
  simpa only [hasConflicts, List.any_eq_false, Bool.not_eq_true] using h

theorem courseStudents_nodup {students : List (String × List String)}
    (h : (students.map (fun p => p.1)).Nodup) (c : String) :
    (courseStudents students c).Nodup := by
  have hsub : List.Sublist
      ((students.filter (fun p => decide (c ∈ p.2))).map (fun p => p.1))
      (students.map (fun p => p.1)) :=
    (List.filter_sublist students).map (fun p => p.1)
  exact h.sublist hsub

/-- Committing a course preserves both section-3 per-student invariants:
the conflict scan of `findDate` guarantees the committed date is admissible
for every enrolled student. -/
theorem commitCourse_inv {minGap : Nat}
    {students : List (String × List String)}
    (hkeys : (students.map (fun p => p.1)).Nodup)
    {σ : SchedState} (h : SchedInv minGap σ) {c : String} {t : Nat}
    (hok : hasConflicts minGap students σ.sed c t = false) :
    SchedInv minGap (commitCourse students σ c t) := by
  have hen : (courseStudents students c).Nodup := courseStudents_nodup hkeys c
  constructor
  · exact foldAppend_nodupKeys _ _ h.1
  · intro s
    show studentDatesOk minGap
      (sedGet ((courseStudents students c).foldl
        (fun m x => sedAppend m x t) σ.sed) s)
    by_cases hs : s ∈ courseStudents students c
    · rw [sedGet_foldAppend_mem _ _ _ hen hs]
      have hsc := studentConflict_eq_false (hasConflicts_eq_false hok s hs)
      obtain ⟨hnd, hgap⟩ := h.2 s
      constructor
      · simpa [List.nodup_append] using ⟨hnd, hsc.1⟩
      · intro a ha b hb hne
        rcases List.mem_append.mp ha with ha1 | ha1 <;>
          rcases List.mem_append.mp hb with hb1 | hb1
        · exact hgap a ha1 b hb1 hne
        · have hb2 : b = t := List.mem_singleton.mp hb1
          subst hb2
          intro hc
          exact hsc.2 a ha1
            ⟨by rw [Nat.dist_comm]; exact hc.1,
             by rw [Nat.dist_comm]; exact hc.2⟩
        · have ha2 : a = t := List.mem_singleton.mp ha1
          subst ha2
          exact hsc.2 b hb1
        · exact absurd
            (List.mem_singleton.mp ha1 ▸ List.mem_singleton.mp hb1 ▸ rfl) hne
    · rw [sedGet_foldAppend_not_mem _ _ _ hs]
      exact h.2 s

/-- One pass of the course loop preserves the invariant. -/
theorem scheduleCourse_inv {minGap maxPerDay : Nat}
    {students : List (String × List String)}
    (hkeys : (students.map (fun p => p.1)).Nodup)
    {σ : SchedState} (h : SchedInv minGap σ) (c : String)
    (dts : List Nat) :
    SchedInv minGap (scheduleCourse minGap maxPerDay students σ c dts) := by
  unfold scheduleCourse
  cases hfd : findDate minGap maxPerDay students σ c dts with
  | none => exact h
  | some t =>
    exact commitCourse_inv hkeys h (findDate_some_noConflicts hfd)

/-- The whole course loop preserves the invariant. -/
theorem runFrom_inv {minGap maxPerDay : Nat}
    {students : List (String × List String)} {avail : List Nat}
    {shuffle : Nat → List Nat → List Nat}
    (hkeys : (students.map (fun p => p.1)).Nodup) :
    ∀ (cs : List String) (i : Nat) (σ : SchedState), SchedInv minGap σ →
      SchedInv minGap
        (runFrom minGap maxPerDay students avail shuffle σ i cs) := by
  intro cs
  induction cs with
  | nil => intro i σ h; exact h
  | cons c rest ih =>
    intro i σ h
    exact ih (i + 1) _ (scheduleCourse_inv hkeys h c (shuffle i avail))

theorem initState_inv (minGap : Nat) : SchedInv minGap initState := by
  refine ⟨List.nodup_nil, fun s => ⟨List.nodup_nil, ?_⟩⟩
  intro a ha
  cases ha

theorem mem_dedupSort {a : Nat} {l : List Nat} :
    a ∈ dedupSort l ↔ a ∈ l := by
  rw [dedupSort, List.mem_insertionSort, List.mem_dedup]

theorem dedupSort_nodup (l : List Nat) : (dedupSort l).Nodup :=
  (List.perm_insertionSort _ _).symm.nodup (List.nodup_dedup l)

theorem dedupSort_sorted (l : List Nat) :
    (dedupSort l).Sorted (fun a b : Nat => a ≤ b) :=
  List.sorted_insertionSort _ _

/-- If one student's exam dates satisfy the section-3 invariants, the
adjacent-pair scan of the verifier flags nothing for that student. -/
theorem adjacentConflicts_eq_nil {minGap : Nat} (sid : String)
    (cd : List (String × Nat)) (sc : List (String × List String)) :
    ∀ l : List Nat, l.Sorted (fun a b : Nat => a ≤ b) → l.Nodup →
      (∀ a ∈ l, ∀ b ∈ l, a ≠ b →
        ¬(0 < Nat.dist a b ∧ Nat.dist a b < minGap)) →
      adjacentConflicts minGap sid cd sc l = [] := by
  intro l
  induction l with
  | nil => intro _ _ _; rfl
  | cons d1 tail ih =>
    intro hsort hnd hgap
    cases tail with
    | nil => rfl
    | cons d2 rest =>
      have h12 : d1 ≤ d2 :=
        (List.sorted_cons.mp hsort).1 d2 (List.mem_cons_self d2 rest)
      have hne : d1 ≠ d2 := by
        intro h
        exact (List.nodup_cons.mp hnd).1 (h ▸ List.mem_cons_self d2 rest)
      have hdist : Nat.dist d1 d2 = d2 - d1 := Nat.dist_eq_sub_of_le h12
      have hcond : ¬(0 < d2 - d1 ∧ d2 - d1 < minGap) := by
        have := hgap d1 (List.mem_cons_self _ _) d2
          (List.mem_cons_of_mem _ (List.mem_cons_self _ _)) hne
        rwa [hdist] at this
      rw [adjacentConflicts, if_neg hcond]
      exact ih (List.sorted_cons.mp hsort).2 (List.nodup_cons.mp hnd).2
        (fun a ha b hb hne' =>
          hgap a (List.mem_cons_of_mem _ ha) b (List.mem_cons_of_mem _ hb) hne')

/-- The verifier's per-student fold flags nothing when every entry's date
list satisfies the section-3 invariants. -/
theorem foldrConflicts_eq_nil {minGap : Nat} {cd : List (String × Nat)}
    {sc : List (String × List String)} :
    ∀ (entries : List (String × List Nat)),
      (∀ p ∈ entries, studentDatesOk minGap p.2) →
      entries.foldr
        (fun p acc =>
          adjacentConflicts minGap p.1 cd sc (dedupSort p.2) ++ acc) [] = [] := by
  intro entries
  induction entries with
  | nil => intro _; rfl
  | cons p rest ih =>
    intro h
    have hp := h p (List.mem_cons_self p rest)
    have hnil : adjacentConflicts minGap p.1 cd sc (dedupSort p.2) = [] := by
      refine adjacentConflicts_eq_nil p.1 cd sc _ (dedupSort_sorted p.2)
        (dedupSort_nodup p.2) ?_
      intro a ha b hb hne
      exact hp.2 a (mem_dedupSort.mp ha) b (mem_dedupSort.mp hb) hne
    rw [List.foldr_cons, hnil, List.nil_append]
    exact ih (fun q hq => h q (List.mem_cons_of_mem p hq))

theorem check_eq_nil_of_ok {minGap : Nat}
    (sed : List (String × List Nat)) (cd : List (String × Nat))
    (sc : List (String × List String))
    (h : ∀ p ∈ sed, studentDatesOk minGap p.2) :
    check_final_schedule_conflicts minGap sed cd sc = [] := by
  unfold check_final_schedule_conflicts
  split
  · rfl
  · exact foldrConflicts_eq_nil sed h

theorem sed_entries_ok {minGap : Nat} {σ : SchedState}
    (h : SchedInv minGap σ) :
    ∀ p ∈ σ.sed, studentDatesOk minGap p.2 := by
  intro p hp
  have hmem : (p.1, p.2) ∈ σ.sed := by
    rwa [Prod.mk.eta]
  rw [← sedGet_of_mem h.1 hmem]
  exact h.2 p.1

theorem generate_eq_some {minGap maxPerDay : Nat} {skip : Bool}
    {startD endD : Nat} {students : List (String × List String)}
    {allCourses : List String} {shuffle : Nat → List Nat → List Nat}
    {σ : SchedState}
    (h : generateScheduleLocally minGap maxPerDay skip startD endD students
      allCourses shuffle = some σ) :
    σ = runFrom minGap maxPerDay students (availableDates skip startD endD)
      shuffle initState 0 (sortCourses students allCourses) := by
  simp only [generateScheduleLocally] at h
  split at h
  · cases h
  · split at h
    · cases h
    · exact (Option.some.inj h).symm

theorem scheduleCourse_epd_le {minGap maxPerDay : Nat}
    {students : List (String × List String)} {σ : SchedState}
    (h : ∀ d, epdGet σ.epd d ≤ maxPerDay) (c : String) (dts : List Nat) :
    ∀ d, epdGet (scheduleCourse minGap maxPerDay students σ c dts).epd d ≤
      maxPerDay := by
  unfold scheduleCourse
  cases hfd : findDate minGap maxPerDay students σ c dts with
  | none => exact h
  | some t =>
    intro d
    show epdGet (epdIncr σ.epd t) d ≤ maxPerDay
    rw [epdGet_epdIncr]
    by_cases hd : t = d
    · rw [if_pos hd]
      have hlt := findDate_some_lt hfd
      subst hd
      omega
    · rw [if_neg hd]
      exact h d

theorem runFrom_epd_le {minGap maxPerDay : Nat}
    {students : List (String × List String)} {avail : List Nat}
    {shuffle : Nat → List Nat → List Nat} :
    ∀ (cs : List String) (i : Nat) (σ : SchedState),
      (∀ d, epdGet σ.epd d ≤ maxPerDay) →
      ∀ d, epdGet
        (runFrom minGap maxPerDay students avail shuffle σ i cs).epd d ≤
          maxPerDay := by
  intro cs
  induction cs with
  | nil => intro i σ h; exact h
  | cons c rest ih =>
    intro i σ h
    exact ih (i + 1) _ (scheduleCourse_epd_le h c (shuffle i avail))

/-- Every record the verifier emits is an insufficient-gap record: a
strictly positive gap below the configured minimum, with at least one
implicated course attached. -/
theorem mem_adjacentConflicts {minGap : Nat} {sid : String}
    {cd : List (String × Nat)} {sc : List (String × List String)} :
    ∀ {l : List Nat} {r : Conflict},
      r ∈ adjacentConflicts minGap sid cd sc l →
      0 < r.days_between ∧ r.days_between < minGap ∧ r.exams ≠ [] := by
  intro l
  induction l with
  | nil => intro r h; cases h
  | cons d1 tail ih =>
    intro r h
    cases tail with
    | nil => cases h
    | cons d2 rest =>
      by_cases hcond : 0 < d2 - d1 ∧ d2 - d1 < minGap
      · rw [adjacentConflicts, if_pos hcond] at h
        by_cases hemp : ((implicatedCourses cd sc sid d1).isEmpty &&
            (implicatedCourses cd sc sid d2).isEmpty) = true
        · rw [if_pos hemp] at h
          exact ih h
        · rw [if_neg hemp] at h
          rcases List.mem_cons.mp h with hr | hr
          · subst hr
            refine ⟨hcond.1, hcond.2, ?_⟩
            intro hnil
            rcases List.append_eq_nil.mp hnil with ⟨h1, h2⟩
            simp [h1, h2] at hemp
          · exact ih hr
      · rw [adjacentConflicts, if_neg hcond] at h
        exact ih h

theorem mem_foldrConflicts {minGap : Nat} {cd : List (String × Nat)}
    {sc : List (String × List String)} :
    ∀ {entries : List (String × List Nat)} {r : Conflict},
      r ∈ entries.foldr
        (fun p acc =>
          adjacentConflicts minGap p.1 cd sc (dedupSort p.2) ++ acc) [] →
      ∃ p ∈ entries, r ∈ adjacentConflicts minGap p.1 cd sc (dedupSort p.2) := by
  intro entries
  induction entries with
  | nil => intro r h; cases h
  | cons p rest ih =>
    intro r h
    rw [List.foldr_cons] at h
    rcases List.mem_append.mp h with h | h
    · exact ⟨p, List.mem_cons_self p rest, h⟩
    · obtain ⟨q, hq, hr⟩ := ih h
      exact ⟨q, List.mem_cons_of_mem p hq, hr⟩

theorem coursesOf_groupStep (m : List (String × StudentData))
    (e : Enrollment) (s : String) :
    coursesOf (groupStep m e) s =
      coursesOf m s ++ (if e.id = s then [e.course_code] else []) := by
  induction m with
  | nil => by_cases h : e.id = s <;> simp [groupStep, coursesOf, h]
  | cons p m ih =>
    by_cases hp : p.1 = e.id
    · by_cases h : e.id = s
      · simp [groupStep, coursesOf, hp, h, hp.trans h]
      · have hps : ¬p.1 = s := fun hh => h (hp ▸ hh)
        simp [groupStep, coursesOf, hp, hps, h]
    · by_cases hps : p.1 = s
      · have h : ¬e.id = s := fun hh => hp (hps.trans hh.symm)
        have hse : ¬s = e.id := fun hh => h hh.symm
        simp [groupStep, coursesOf, hp, hps, h, hse]
      · simp [groupStep, coursesOf, hp, hps, ih]

theorem coursesOf_foldl (s : String) :
    ∀ (es : List Enrollment) (m : List (String × StudentData)),
      coursesOf (es.foldl groupStep m) s =
        coursesOf m s ++
          (es.filter (fun e => e.id = s)).map (fun e => e.course_code) := by
  intro es
  induction es with
  | nil => intro m; simp
  | cons e rest ih =>
    intro m
    rw [List.foldl_cons, ih, coursesOf_groupStep]
    by_cases h : e.id = s <;> simp [h, List.filter_cons]

/-- The available-date list is empty for a reversed window and for a
weekend-only window with weekend skipping on. -/
theorem availableDates_eq_nil {skip : Bool} {startD endD : Nat}
    (h : endD < startD ∨
      (skip = true ∧ ∀ d, startD ≤ d → d ≤ endD → 5 ≤ weekday d)) :
    availableDates skip startD endD = [] := by
  rcases h with h | ⟨hskip, hall⟩
  · have hz : endD + 1 - startD = 0 := by omega
    simp [availableDates, hz]
  · subst hskip
    unfold availableDates
    rw [List.filter_eq_nil_iff]
    intro d hd
    simp only [List.mem_map, List.mem_range] at hd
    obtain ⟨i, hi, rfl⟩ := hd
    have h1 : startD ≤ startD + i := Nat.le_add_right _ _
    have h2 : startD + i ≤ endD := by omega
    simp [hall _ h1 h2]

/-- Claim C1: for every schedule the Greedy Scheduler produces, every
student's committed exam dates are pairwise distinct and never at a
distance strictly between 0 and `MIN_DAYS_BETWEEN_EXAMS` (so every commit
respected both section-3 invariants for every touched student), and
consequently the Conflict Verifier, run on the resulting student exam-date
map and course-date map, reports zero violations. -/
theorem C1_clean_run_zero_conflicts (minGap maxPerDay : Nat) (skip : Bool)
    (startD endD : Nat) (students : List (String × List String))
    (allCourses : List String) (shuffle : Nat → List Nat → List Nat)
    (hkeys : (students.map (fun p => p.1)).Nodup) (σ : SchedState)
    (hrun : generateScheduleLocally minGap maxPerDay skip startD endD
      students allCourses shuffle = some σ) :
    (∀ s, studentDatesOk minGap (sedGet σ.sed s)) ∧
    check_final_schedule_conflicts minGap σ.sed σ.course_dates students =
      [] := by
  obtain rfl := generate_eq_some hrun
  have hinv := @runFrom_inv minGap maxPerDay students
    (availableDates skip startD endD) shuffle hkeys
    (sortCourses students allCourses) 0 initState (initState_inv minGap)
  exact ⟨hinv.2, check_eq_nil_of_ok _ _ _ (sed_entries_ok hinv)⟩

/-- Witness for C1: a concrete clean run (one student in two courses,
`MIN_DAYS_BETWEEN_EXAMS = 2`, a seven-day window, identity shuffle)
satisfies the invariants and yields a conflict-free verifier report. -/
theorem C1_clean_run_zero_conflicts_witness :
    (∀ s, studentDatesOk 2 (sedGet c1Result.sed s)) ∧
    check_final_schedule_conflicts 2 c1Result.sed c1Result.course_dates
      c1Students = [] :=
  C1_clean_run_zero_conflicts 2 5 false 2 8 c1Students ["A", "B"]
    (fun _ l => l) (by decide) c1Result (by decide)

/-- Claim C2: at every point of a Greedy Scheduler run (that is, after any
prefix of the course list has been processed, starting from the empty
state) and for every date, the per-day exam counter is at most
`MAX_EXAMS_PER_DAY`: a full day is always skipped by the slot scan and the
counter only grows on commit. -/
theorem C2_day_load_bound (minGap maxPerDay : Nat)
    (students : List (String × List String)) (avail : List Nat)
    (shuffle : Nat → List Nat → List Nat) (cs : List String) (i : Nat)
    (d : Nat) :
    epdGet
      (runFrom minGap maxPerDay students avail shuffle initState i cs).epd
      d ≤ maxPerDay :=
  runFrom_epd_le cs i initState (fun _ => Nat.zero_le _) d

/-- Claim C3 (code bug): the committed schedule list does not hold one row
per scheduled course.  Scheduling the single course `A` with two enrolled
students produces two identical `(course, date)` rows, and scheduling the
student-free course `B` produces a committed course (present in
`course_dates`, absent from `unscheduled`) with no schedule row at all,
because the source appends the row inside the per-student loop
(src/scheduleGenerator.py:404-410). -/
theorem C3_schedule_row_per_student :
    ((generateScheduleLocally 1 5 false 3 3 [("s1", ["A"]), ("s2", ["A"])]
        ["A"] (fun _ l => l)).map
      (fun σ => (σ.schedule, σ.course_dates, σ.unscheduled)) =
      some ([("A", 3), ("A", 3)], [("A", 3)], [])) ∧
    ((generateScheduleLocally 1 5 false 3 4 [("s1", ["A"])] ["A", "B"]
        (fun _ l => l)).map
      (fun σ => (σ.schedule, σ.course_dates, σ.unscheduled)) =
      some ([("A", 3)], [("A", 3), ("B", 3)], [])) := by decide

/-- Claim C8: a window with no usable slot - reversed bounds, or all days
falling on a skipped weekend - makes the run fail before any scheduling
attempt: the scheduler returns nothing and no state is ever built. -/
theorem C8_empty_window_aborts (minGap maxPerDay : Nat) (skip : Bool)
    (startD endD : Nat) (students : List (String × List String))
    (allCourses : List String) (shuffle : Nat → List Nat → List Nat)
    (h : endD < startD ∨
      (skip = true ∧ ∀ d, startD ≤ d → d ≤ endD → 5 ≤ weekday d)) :
    generateScheduleLocally minGap maxPerDay skip startD endD students
      allCourses shuffle = none := by
  unfold generateScheduleLocally
  split
  · rfl
  · simp [availableDates_eq_nil h]

/-- Witness for C8: a reversed window (start ordinal 10, end ordinal 5)
aborts the run. -/
theorem C8_empty_window_aborts_witness :
    generateScheduleLocally 1 5 true 10 5 [("s1", ["A"])] ["A"]
      (fun _ l => l) = none :=
  C8_empty_window_aborts 1 5 true 10 5 [("s1", ["A"])] ["A"] (fun _ l => l)
    (Or.inl (by decide))

/-- Counterexample to claim C9: feeding the same `(s1, A)` enrollment row
twice leaves the course recorded twice - the claimed set semantics (the
course exactly once) does not hold. -/
theorem C9_counterexample :
    coursesOf (group_enrollments_by_student
      [⟨"s1", "N", "CE", "Dip", "A"⟩, ⟨"s1", "N", "CE", "Dip", "A"⟩])
      "s1" = ["A", "A"] ∧
    (["A", "A"] : List String) ≠ ["A"] := by decide

/-- Claim C9 as amended: duplicate `(student_id, course_code)` enrollment
records are retained, not collapsed - the student's recorded course list
holds exactly one entry per enrollment record of that student, in input
order, so a pair occurring k times appears k times. -/
theorem C9_list_semantics (es : List Enrollment) (s : String) :
    coursesOf (group_enrollments_by_student es) s =
      (es.filter (fun e => e.id = s)).map (fun e => e.course_code) := by
  unfold group_enrollments_by_student
  rw [coursesOf_foldl]
  simp [coursesOf]

/-- Claim C10: a course for which the whole shuffled slot list is exhausted
without an acceptable slot leaves the scheduling state untouched - the
per-day counters, every student's exam dates, the schedule list and the
course-date map are exactly as before - and only the unscheduled list (and
hence the derived issues list) grows by that course. -/
theorem C10_failed_course_leaves_state (minGap maxPerDay : Nat)
    (students : List (String × List String)) (σ : SchedState) (c : String)
    (dts : List Nat)
    (h : findDate minGap maxPerDay students σ c dts = none) :
    scheduleCourse minGap maxPerDay students σ c dts =
      { σ with unscheduled := σ.unscheduled ++ [c] } ∧
    issuesOf (σ.unscheduled ++ [c]) =
      issuesOf σ.unscheduled ++
        ["Course " ++ c ++ " could not be scheduled."] := by
  constructor
  · unfold scheduleCourse
    rw [h]
  · simp [issuesOf]

/-- Witness for C10: with day 3 already at the cap of 5 exams, course `A`
finds no slot in the one-day list and only the unscheduled list grows. -/
theorem C10_failed_course_leaves_state_witness :
    scheduleCourse 1 5 [("s1", ["A"])] ⟨[], [], [], [(3, 5)], []⟩ "A" [3] =
      { (⟨[], [], [], [(3, 5)], []⟩ : SchedState) with
          unscheduled := ([] : List String) ++ ["A"] } ∧
    issuesOf (([] : List String) ++ ["A"]) =
      issuesOf [] ++ ["Course " ++ "A" ++ " could not be scheduled."] :=
  C10_failed_course_leaves_state 1 5 [("s1", ["A"])]
    ⟨[], [], [], [(3, 5)], []⟩ "A" [3] (by decide)

/-- Counterexample to claim C4: a student with two exams on the same date
yields no conflict record at all - the verifier deduplicates the dates with
`sorted(list(set(exams)))` and has no same-day check - whereas the claim
promises a same-day conflict record. -/
theorem C4_counterexample :
    check_final_schedule_conflicts 3 [("s1", [700, 700])]
      [("A", 700), ("B", 700)] [("s1", ["A", "B"])] = [] := by decide

/-- Claim C4 as amended: the verifier first collapses each student's exam
dates to a sorted duplicate-free list, so a repeated date is silently
dropped and same-day conflicts are never reported; every record it does
emit is an insufficient-gap record with `0 < days_between <
MIN_DAYS_BETWEEN_EXAMS` and a nonempty implicated-course list. -/
theorem C4_verifier_gap_only (minGap : Nat) (cd : List (String × Nat))
    (sc : List (String × List String)) :
    (∀ (items : List (String × List Nat)) (r : Conflict),
      r ∈ check_final_schedule_conflicts minGap items cd sc →
      0 < r.days_between ∧ r.days_between < minGap ∧ r.exams ≠ []) ∧
    (∀ (sid : String) (d : Nat) (exams : List Nat)
      (rest : List (String × List Nat)),
      check_final_schedule_conflicts minGap ((sid, d :: d :: exams) :: rest)
        cd sc =
      check_final_schedule_conflicts minGap ((sid, d :: exams) :: rest)
        cd sc) := by
  constructor
  · intro items r hr
    unfold check_final_schedule_conflicts at hr
    split at hr
    · cases hr
    · obtain ⟨p, _, hp⟩ := mem_foldrConflicts hr
      exact mem_adjacentConflicts hp
  · intro sid d exams rest
    have hd : dedupSort (d :: d :: exams) = dedupSort (d :: exams) := by
      unfold dedupSort
      rw [List.dedup_cons_of_mem (List.mem_cons_self d exams)]
    simp only [check_final_schedule_conflicts, List.isEmpty_cons,
      List.foldr_cons, hd]

/-- Witness for C4: the record flagged for consecutive exam days 10 and 11
under a minimum gap of 3 indeed has a positive sub-minimum gap and a
nonempty implicated-course list. -/
theorem C4_verifier_gap_only_witness :
    0 < c4Record.days_between ∧ c4Record.days_between < 3 ∧
      c4Record.exams ≠ [] :=
  (C4_verifier_gap_only 3 [("A", 10), ("B", 11)] [("s1", ["A", "B"])]).1
    [("s1", [10, 11])] c4Record (by decide)

/-- Counterexample to claim C5: the Remote Suggestion Service supplies a
parseable schedule - one the verifier would flag, exams on consecutive
days 11 and 12 under a minimum gap of 2 - yet the run produces no final
output at all (`main` crashes unpacking `call_deepseek_api`'s 2-tuple into
three targets), while the Greedy Scheduler's own output on the same input
exists and differs; the remote schedule is neither routed through the
Conflict Verifier nor discarded in favour of the greedy output, refuting
the claimed verify-then-fall-back behaviour. -/
theorem C5_counterexample :
    runPipeline 2 5 false 11 14 [("s1", ["A", "B"])] ["A", "B"]
      (fun _ l => l) (.parsed [("A", 11), ("B", 12)]) = none ∧
    (generateScheduleLocally 2 5 false 11 14 [("s1", ["A", "B"])]
        ["A", "B"] (fun _ l => l)).map (fun σ => σ.schedule) =
      some [("A", 11), ("B", 13)] := by decide

/-- Claim C5 as amended: whenever the Remote Suggestion Service supplies a
parseable schedule, the run crashes before any verification -
`call_deepseek_api` returns a 2-tuple that `main` unpacks into three
targets, raising a `ValueError` caught by the blanket handler - so the
remote schedule is never routed through the Conflict Verifier, never
accepted, and no final output is produced; only a failed request or an
unparseable response falls back to the Greedy Scheduler, whose output is
then passed through the Conflict Verifier with the findings recorded
alongside it. -/
theorem C5_parsed_remote_crashes (minGap maxPerDay : Nat) (skip : Bool)
    (startD endD : Nat) (students : List (String × List String))
    (allCourses : List String) (shuffle : Nat → List Nat → List Nat)
    (s : List (String × Nat)) (σ : SchedState)
    (hlocal : generateScheduleLocally minGap maxPerDay skip startD endD
      students allCourses shuffle = some σ) :
    runPipeline minGap maxPerDay skip startD endD students allCourses
      shuffle (.parsed s) = none ∧
    runPipeline minGap maxPerDay skip startD endD students allCourses
      shuffle .requestFailed =
      some ⟨σ.schedule, σ.course_dates, σ.sed,
        check_final_schedule_conflicts minGap σ.sed σ.course_dates
          students⟩ ∧
    runPipeline minGap maxPerDay skip startD endD students allCourses
      shuffle .parseFailed =
      some ⟨σ.schedule, σ.course_dates, σ.sed,
        check_final_schedule_conflicts minGap σ.sed σ.course_dates
          students⟩ := by
  refine ⟨rfl, ?_, ?_⟩ <;> simp [runPipeline, hlocal]

/-- Witness for C5: on a concrete input where the local scheduler
succeeds, a parsed remote schedule yields no output while both fallback
outcomes yield the local schedule with its verifier findings. -/
theorem C5_parsed_remote_crashes_witness :
    runPipeline 2 5 false 11 14 [("s1", ["A", "B"])] ["A", "B"]
      (fun _ l => l) (.parsed [("A", 99), ("B", 100)]) = none ∧
    runPipeline 2 5 false 11 14 [("s1", ["A", "B"])] ["A", "B"]
      (fun _ l => l) .requestFailed =
      some ⟨c5LocalResult.schedule, c5LocalResult.course_dates,
        c5LocalResult.sed,
        check_final_schedule_conflicts 2 c5LocalResult.sed
          c5LocalResult.course_dates [("s1", ["A", "B"])]⟩ ∧
    runPipeline 2 5 false 11 14 [("s1", ["A", "B"])] ["A", "B"]
      (fun _ l => l) .parseFailed =
      some ⟨c5LocalResult.schedule, c5LocalResult.course_dates,
        c5LocalResult.sed,
        check_final_schedule_conflicts 2 c5LocalResult.sed
          c5LocalResult.course_dates [("s1", ["A", "B"])]⟩ :=
  C5_parsed_remote_crashes 2 5 false 11 14 [("s1", ["A", "B"])]
    ["A", "B"] (fun _ l => l) [("A", 99), ("B", 100)] c5LocalResult
    (by decide)

/-- Counterexample to claim C6: over `c6Students` the scheduler attempts
`A` (conflict pressure 0) before `D` (conflict pressure 2), so the order is
not descending conflict pressure, and with `E` and `D` of equal pressure
and equal student count it keeps the input order `E` before `D` although
`D` precedes `E` lexicographically, so ties are not broken by course code
ascending. -/
theorem C6_counterexample :
    sortCourses c6Students ["A", "E", "D"] = ["A", "E", "D"] ∧
    conflictPressure c6Students ["A", "E", "D"] "A" <
      conflictPressure c6Students ["A", "E", "D"] "D" ∧
    conflictPressure c6Students ["A", "E", "D"] "E" =
      conflictPressure c6Students ["A", "E", "D"] "D" ∧
    pyStrLt "D" "E" = true := by decide

/-- Claim C6 as amended: the Greedy Scheduler attempts courses in
descending order of enrolled-student count (occurrences of the course over
all students' course lists), stably - the output is a permutation of the
input course list, its counts are non-increasing, and any two courses in
input order whose counts allow it (in particular, ties) keep their relative
order; neither conflict pressure nor course codes play a role. -/
theorem C6_course_order (students : List (String × List String))
    (cs : List String) :
    (sortCourses students cs).Perm cs ∧
    (sortCourses students cs).Pairwise
      (fun a b =>
        courseStudentCount students b ≤ courseStudentCount students a) ∧
    (∀ a b : String,
      courseStudentCount students b ≤ courseStudentCount students a →
      List.Sublist [a, b] cs →
      List.Sublist [a, b] (sortCourses students cs)) := by
  haveI hto : IsTotal String
      (fun a b =>
        courseStudentCount students b ≤ courseStudentCount students a) :=
    ⟨fun a b => Nat.le_total _ _⟩
  haveI htr : IsTrans String
      (fun a b =>
        courseStudentCount students b ≤ courseStudentCount students a) :=
    ⟨fun a b c hab hbc => Nat.le_trans hbc hab⟩
  refine ⟨List.perm_insertionSort _ cs, List.sorted_insertionSort _ cs,
    fun a b hab hsub => List.pair_sublist_insertionSort hab hsub⟩

/-- Counterexample to claim C7: two pairs with equal shared-student count
come out in first-insertion order `B_C` before `A_B`, although `A_B`
precedes `B_C` lexicographically - ties are not broken by lexicographic
pair order. -/
theorem C7_counterexample :
    analyze_course_conflicts [("s1", ["B", "C"]), ("s2", ["A", "B"])] =
      [("B_C", 1), ("A_B", 1)] ∧
    pyStrLt "A_B" "B_C" = true := by decide

/-- Claim C7 as amended: the Conflict Analyzer counts each canonicalised
unordered pair once - `(B,A)` and `(A,B)` merge into the single key `A_B` -
and outputs the pairs in non-increasing shared-student count order, with
ties keeping first-insertion order; in particular, for
`{s1:[A,B], s2:[A,B], s3:[A,C]}` the pair `A_B` with count 2 ranks above
`A_C` with count 1. -/
theorem C7_analyzer_ranking (students : List (String × List String)) :
    (analyze_course_conflicts students).Pairwise
      (fun a b : String × Nat => b.2 ≤ a.2) ∧
    analyze_course_conflicts
      [("s1", ["A", "B"]), ("s2", ["A", "B"]), ("s3", ["A", "C"])] =
      [("A_B", 2), ("A_C", 1)] ∧
    analyze_course_conflicts [("s1", ["B", "A"]), ("s2", ["A", "B"])] =
      [("A_B", 2)] := by
  refine ⟨?_, by decide, by decide⟩
  haveI hto : IsTotal (String × Nat) (fun a b : String × Nat => b.2 ≤ a.2) :=
    ⟨fun a b => Nat.le_total _ _⟩
  haveI htr : IsTrans (String × Nat) (fun a b : String × Nat => b.2 ≤ a.2) :=
    ⟨fun a b c hab hbc => Nat.le_trans hbc hab⟩
  exact List.sorted_insertionSort _ _

end ExamSchedule
